import Mathlib

/-!
Verification development for the `youtube-sentiment-analysis` repository.

The Python modules under `youtube_sentiment/` are shallowly embedded below:
pure functions become Lean functions; external libraries (the `langdetect`
detector, the `deep_translator` backend, the TextBlob polarity scorer and the
YouTube Data API) are modelled as explicit oracle parameters, with `Option` /
`Except` encoding exceptions and `None` results.  Floating point polarity
scores are modelled as rationals (`ℚ`): every comparison performed by the code
(`> 0.1`, `< -0.1`, sort by polarity) is order-theoretic and is faithfully
represented.  Strings are handled on their underlying character lists; the
ASCII fragment of Python's `str.lower`, `str.isalnum` and `\w`/`\s` classes is
used, which covers every string manipulated by the claims.
-/

/-! ### Generic list helpers (substring matching) -/

/-- `isPre n h` is true iff the list `n` is an initial segment of `h`
(model of Python's `str.startswith`, used to build `in` below). -/
def isPre : List Char → List Char → Bool
  | [], _ => true
  | _ :: _, [] => false
  | c :: n, d :: h => c == d && isPre n h

/-- `containsSub n h` is true iff `n` occurs as a contiguous substring of `h`
(model of Python's `needle in haystack`). -/
def containsSub (n : List Char) : List Char → Bool
  | [] => isPre n []
  | d :: h => isPre n (d :: h) || containsSub n h

/-- Declarative counterpart of `containsSub`: `n` occurs with some prefix `a`
and suffix `b` around it. -/
def SubOf (n h : List Char) : Prop := ∃ a b, h = a ++ n ++ b

/-! ### A small regular-expression engine

Only the constructs used by the fixed patterns of
`sentiment_analyzer.detect_toxicity` are represented: literals, `\s+`, the
word boundary `\b`, optional groups, alternation and sequencing.  `Re.states`
computes, for a given starting context (previous character, remaining input),
the list of contexts in which the pattern can finish; `reSearch` scans every
start position exactly as `re.search` does. -/

/-- ASCII model of the Python regex word class `\w` = `[a-zA-Z0-9_]`. -/
def isWordChar (c : Char) : Bool := c.isAlphanum || c == '_'

/-- `\b`: a word boundary holds between the previous character (none at the
start of the text) and the next character (none at the end). -/
def wordBoundary (prev : Option Char) (s : List Char) : Bool :=
  let w1 := match prev with | none => false | some c => isWordChar c
  let w2 := match s with | [] => false | c :: _ => isWordChar c
  w1 != w2

/-- States reachable by consuming one or more whitespace characters (`\s+`). -/
def wsStates : Option Char → List Char → List (Option Char × List Char)
  | _, [] => []
  | _, c :: rest =>
    if c.isWhitespace then (some c, rest) :: wsStates (some c) rest else []

/-- States reachable by consuming the literal `w`. -/
def litStates : List Char → Option Char → List Char → List (Option Char × List Char)
  | [], prev, s => [(prev, s)]
  | _ :: _, _, [] => []
  | c :: w, _, d :: s => if c == d then litStates w (some c) s else []

/-- Regular expressions over characters (the fragment used by the source). -/
inductive Re where
  | lit : List Char → Re
  | ws : Re
  | wb : Re
  | opt : Re → Re
  | alt : Re → Re → Re
  | seq : Re → Re → Re

/-- All contexts in which `r` can finish matching, starting from context
`(prev, s)`. -/
def Re.states : Re → Option Char → List Char → List (Option Char × List Char)
  | .lit w, prev, s => litStates w prev s
  | .ws, prev, s => wsStates prev s
  | .wb, prev, s => if wordBoundary prev s then [(prev, s)] else []
  | .opt r, prev, s => (prev, s) :: r.states prev s
  | .alt r1 r2, prev, s => r1.states prev s ++ r2.states prev s
  | .seq r1 r2, prev, s => (r1.states prev s).flatMap (fun st => r2.states st.1 st.2)

/-- Does `r` match starting exactly at context `(prev, s)`? -/
def reMatchAt (r : Re) (prev : Option Char) (s : List Char) : Bool :=
  !((r.states prev s).isEmpty)

/-- `re.search`: try every start position, left to right. -/
def searchAux (r : Re) (prev : Option Char) (s : List Char) : Bool :=
  reMatchAt r prev s ||
    match s with
    | [] => false
    | c :: rest => searchAux r (some c) rest

/-- `re.search(r, s)` on a whole text. -/
def reSearch (r : Re) (s : List Char) : Bool := searchAux r none s

/-! ### `sentiment_analyzer.py` -/

/-- The fixed thresholding of `analyze_sentiment`:
`polarity > 0.1 → Positive`, `polarity < -0.1 → Negative`, else `Neutral`. -/
def sentimentLabel (polarity : ℚ) : String :=
  if polarity > 1/10 then "Positive"
  else if polarity < -(1/10) then "Negative"
  else "Neutral"

/-- The dictionary returned by `analyze_sentiment`. -/
structure SentimentResult where
  sentiment : String
  polarity : ℚ
  deriving Repr, DecidableEq

/-- `analyze_sentiment(text)`.  The TextBlob polarity scorer is the oracle
`scorer`; `none` models the `except` branch (the scorer raised), in which case
the function returns `{'Neutral', 0.0}`. -/
def analyze_sentiment (scorer : String → Option ℚ) (text : String) : SentimentResult :=
  match scorer text with
  | some p => { sentiment := sentimentLabel p, polarity := p }
  | none => { sentiment := "Neutral", polarity := 0 }

/-- The fixed keyword blocklist of `detect_toxicity`. -/
def toxicity_keywords : List String :=
  ["hate", "kill", "stupid", "idiot", "dumb", "worthless", "disgusting",
   "disgust", "shut up", "shutup", "shut your", "go to hell", "damn",
   "retard", "retarded", "moron", "moronic", "crap", "trash", "garbage",
   "useless", "pathetic", "awful", "terrible", "horrible", "horrid"]

/-- `r'\byou\s+are\s+(a\s+)?(idiot|stupid|dumb|moron|retard)'`. -/
def patYouAre : Re :=
  .seq .wb (.seq (.lit "you".data) (.seq .ws (.seq (.lit "are".data) (.seq .ws
    (.seq (.opt (.seq (.lit "a".data) .ws))
      (.alt (.lit "idiot".data) (.alt (.lit "stupid".data)
        (.alt (.lit "dumb".data) (.alt (.lit "moron".data) (.lit "retard".data))))))))))

/-- `\b<word>\b`. -/
def patWord (w : String) : Re := .seq .wb (.seq (.lit w.data) .wb)

/-- The fixed regex pattern list of `detect_toxicity`. -/
def toxic_patterns : List Re :=
  [patYouAre, patWord "fuck", patWord "shit", patWord "die", patWord "kys"]

/-- ASCII model of Python `str.lower`. -/
def lowerChars (s : List Char) : List Char := s.map Char.toLower

/-- `detect_toxicity(text)`: lowercase, then check the keyword blocklist by
substring containment, then the regex patterns by `re.search`. -/
def detect_toxicity (text : String) : Bool :=
  let text_lower := lowerChars text.data
  toxicity_keywords.any (fun k => containsSub k.data text_lower) ||
    toxic_patterns.any (fun p => reSearch p text_lower)

/-! ### `language_processor.py`

The `langdetect` detector is the oracle `det : String → Option String`
(`none` = the detector raised); the `deep_translator` backend is the oracle
`tr : String → Option (Option String)` (outer `none` = the backend raised,
`some none` = it returned Python `None`, `some (some t)` = it returned `t`).
Both embedded functions additionally return a `Bool` recording whether the
external service was invoked, so that "no network call" claims are statable;
the plain wrappers project the string result.  Both are total Lean functions:
the Python `except` branches are the `none` cases of the oracles, so no
exception can propagate. -/

/-- `detect_language(text)` with an invocation flag for the detector. -/
def detect_language_impl (det : String → Option String) (text : String) :
    String × Bool :=
  if text.isEmpty || text.data.all (fun c => c.isWhitespace) then ("unknown", false)
  else if text.data.all (fun c => !c.isAlphanum) then ("unknown", false)
  else
    match det text with
    | some code => (code, true)
    | none => ("unknown", true)

/-- `detect_language(text)`. -/
def detect_language (det : String → Option String) (text : String) : String :=
  (detect_language_impl det text).1

/-- `translate_to_english(text, src_lang=None)` with an invocation flag for
the translation backend. -/
def translate_impl (det : String → Option String)
    (tr : String → Option (Option String)) (text : String)
    (src_lang : Option String) : String × Bool :=
  if text.isEmpty || text.data.all (fun c => c.isWhitespace) then (text, false)
  else
    let src := match src_lang with
      | some l => l
      | none => detect_language det text
    if src = "en" ∨ src = "unknown" then (text, false)
    else
      match tr text with
      | none => (text, true)
      | some none => (text, true)
      | some (some t) => (t, true)

/-- `translate_to_english(text, src_lang=None)`. -/
def translate_to_english (det : String → Option String)
    (tr : String → Option (Option String)) (text : String)
    (src_lang : Option String) : String :=
  (translate_impl det tr text src_lang).1

/-! ### `youtube_api.py` — `get_video_id`

The four regex patterns of the source and its manual `v=` fallback are
implemented directly.  Patterns 1, 3 and 4 locate one of three literal
prefixes followed by exactly 11 identifier characters; pattern 2 is
`youtube\.com\/watch\?.*v=([a-zA-Z0-9_-]{11})` whose greedy `.*` (which does
not cross a newline) picks the rightmost viable `v=` for the leftmost viable
start position. -/

/-- The character class `[a-zA-Z0-9_-]` of a video identifier. -/
def isIdChar (c : Char) : Bool := c.isAlphanum || c == '_' || c == '-'

/-- `([a-zA-Z0-9_-]{11})`: capture exactly 11 identifier characters at the
current position, if present. -/
def take11 (l : List Char) : Option (List Char) :=
  let pre := l.take 11
  if pre.length = 11 && pre.all isIdChar then some pre else none

/-- Try, at the current position, each alternative literal followed by the
11-character capture (regex alternation tries alternatives left to right). -/
def tryAt (alts : List (List Char)) (s : List Char) : Option (List Char) :=
  alts.findSome? fun p => if isPre p s then take11 (s.drop p.length) else none

/-- Leftmost search for one of the alternative literals followed by the
11-character capture. -/
def searchPrefix11 (alts : List (List Char)) : List Char → Option (List Char)
  | [] => tryAt alts []
  | c :: rest =>
    match tryAt alts (c :: rest) with
    | some v => some v
    | none => searchPrefix11 alts rest

/-- `v=([a-zA-Z0-9_-]{11})` anchored at the current position. -/
def vMatchHere : List Char → Option (List Char)
  | 'v' :: '=' :: rest => take11 rest
  | _ => none

/-- Greedy `.*v=([a-zA-Z0-9_-]{11})`: prefer consuming the current character
with `.*` (which cannot consume a newline), falling back to matching `v=`
right here. -/
def dotStarGreedy : List Char → Option (List Char)
  | [] => vMatchHere []
  | c :: rest =>
    if c == '\n' then vMatchHere (c :: rest)
    else
      match dotStarGreedy rest with
      | some v => some v
      | none => vMatchHere (c :: rest)

/-- Leftmost search for `youtube\.com\/watch\?.*v=([a-zA-Z0-9_-]{11})`. -/
def searchPat2 : List Char → Option (List Char)
  | [] => none
  | c :: rest =>
    match (if isPre "youtube.com/watch?".data (c :: rest)
           then dotStarGreedy ((c :: rest).drop 18) else none) with
    | some v => some v
    | none => searchPat2 rest

/-- The suffix following the first occurrence of `v=` (Python
`url.find('v=') + 2`), if any. -/
def afterFirstVEq : List Char → Option (List Char)
  | [] => none
  | 'v' :: '=' :: rest => some rest
  | _ :: rest => afterFirstVEq rest

/-- `re.match(r'^[a-zA-Z0-9_-]+$', vid)`: all characters are identifier
characters (Python `$` also matches just before one trailing newline). -/
def idPlusMatch (l : List Char) : Bool :=
  (!l.isEmpty && l.all isIdChar) ||
    (decide (2 ≤ l.length) && l.getLast? == some '\n' && l.dropLast.all isIdChar)

/-- `get_video_id(url)`: try the four regex patterns in order, then the
manual `v=` fallback; `none` models Python's `None`. -/
def get_video_id (url : String) : Option String :=
  if url = "" then none
  else
    let u := url.data
    match searchPrefix11
        ["youtube.com/watch?v=".data, "youtu.be/".data, "youtube.com/embed/".data] u with
    | some v => some (String.mk v)
    | none =>
      match searchPat2 u with
      | some v => some (String.mk v)
      | none =>
        match searchPrefix11 ["youtu.be/".data] u with
        | some v => some (String.mk v)
        | none =>
          match searchPrefix11 ["youtube.com/embed/".data] u with
          | some v => some (String.mk v)
          | none =>
            match afterFirstVEq u with
            | none => none
            | some rest =>
              let vid := rest.takeWhile (fun c => !(c == '&'))
              if vid.length = 11 && idPlusMatch vid then some (String.mk vid)
              else none

/-! ### `youtube_api.py` — fetchers

One API page response carries the comment items of the page and the optional
`nextPageToken`.  The API itself is the oracle
`api : Option String → Nat → Except String PageResponse` (page token and
requested `maxResults` in, either an underlying error message — the Python
exception caught around `request.execute()` — or a response out).  The
unbounded `while` loops are given a `fuel` parameter: fuel exhaustion models
the upstream having no further pages to serve; every claim proved below is
either independent of `fuel` or quantified over all sufficient `fuel`. -/

/-- One raw comment as built from an API item. -/
structure RawComment where
  id : String
  author : String
  text : String
  published_at : String
  like_count : Nat
  updated_at : String
  deriving Repr, DecidableEq

/-- One page of the comment-threads API. -/
structure PageResponse where
  items : List RawComment
  nextPageToken : Option String
  deriving Repr, DecidableEq

/-- The YouTube API oracle: page token and requested page size to either an
underlying error message or a page. -/
abbrev Api := Option String → Nat → Except String PageResponse

/-- Errors raised by the fetchers: `valueError` for the two precondition
checks, `exception` for the wrapped page-request failure. -/
inductive FetchError where
  | valueError : String → FetchError
  | exception : String → FetchError
  deriving Repr, DecidableEq

/-- One record of the request/response history of the `fetch_comments` loop:
the number of comments accumulated before the request, the requested page
size, the token sent, and the items and next token received. -/
structure ReqRec where
  before : Nat
  size : Nat
  tok : Option String
  items : List RawComment
  nextTok : Option String
  deriving Repr, DecidableEq

/-- The `while len(comments) < max_results` loop of `fetch_comments`,
returning the request/response history (the accumulated comment list is its
flattened `items`).  `fetched` is `len(comments)` at the loop head. -/
def fetch_comments_go (api : Api) (maxr : Nat) :
    Nat → Option String → Nat → Except FetchError (List ReqRec)
  | 0, _, _ => .ok []
  | fuel + 1, tok, fetched =>
    if fetched < maxr then
      match api tok (min 100 (maxr - fetched)) with
      | .error m => .error (.exception ("Error fetching comments: " ++ m))
      | .ok resp =>
        match resp.nextPageToken with
        | none => .ok [⟨fetched, min 100 (maxr - fetched), tok, resp.items, none⟩]
        | some t =>
          (fetch_comments_go api maxr fuel (some t) (fetched + resp.items.length)).map
            (fun rest => ⟨fetched, min 100 (maxr - fetched), tok, resp.items, some t⟩ :: rest)
    else .ok []

/-- `fetch_comments(video_url, max_results)`: resolve the video id, check the
credential, run the page loop, return `comments[:max_results]`. -/
def fetch_comments (key : String) (api : Api) (video_url : String)
    (max_results : Nat) (fuel : Nat) : Except FetchError (List RawComment) :=
  match get_video_id video_url with
  | none => .error (.valueError "Invalid YouTube URL or unable to extract video ID")
  | some _ =>
    if key = "" then
      .error (.valueError "YouTube API key not found. Please set YOUTUBE_API_KEY in .env file")
    else
      (fetch_comments_go api max_results fuel none 0).map
        (fun tr => (tr.flatMap (fun r => r.items)).take max_results)

/-- The `while True` loop of `fetch_all_comments`: always request page size
100, accumulate until the next token is absent. -/
def fetch_all_go (api : Api) :
    Nat → Option String → List RawComment → Except FetchError (List RawComment)
  | 0, _, acc => .ok acc
  | fuel + 1, tok, acc =>
    match api tok 100 with
    | .error m => .error (.exception ("Error fetching comments: " ++ m))
    | .ok resp =>
      match resp.nextPageToken with
      | none => .ok (acc ++ resp.items)
      | some t => fetch_all_go api fuel (some t) (acc ++ resp.items)

/-- `fetch_all_comments(video_url)`. -/
def fetch_all_comments (key : String) (api : Api) (video_url : String)
    (fuel : Nat) : Except FetchError (List RawComment) :=
  match get_video_id video_url with
  | none => .error (.valueError "Invalid YouTube URL or unable to extract video ID")
  | some _ =>
    if key = "" then
      .error (.valueError "YouTube API key not found. Please set YOUTUBE_API_KEY in .env file")
    else
      fetch_all_go api fuel none []

/-- An upstream whose token chain, starting at `tok`, serves `n` pages (each
requested with size 100) whose concatenated items are `items`, ending with an
absent next token. -/
inductive ChainN (api : Api) : Nat → Option String → List RawComment → Prop where
  | last : ∀ tok resp, api tok 100 = .ok resp → resp.nextPageToken = none →
      ChainN api 1 tok resp.items
  | step : ∀ tok resp t n rest, api tok 100 = .ok resp →
      resp.nextPageToken = some t → ChainN api n (some t) rest →
      ChainN api (n + 1) tok (resp.items ++ rest)

/-! ### `main.py` — enrichment pipeline and summary -/

/-- The enriched comment dictionary built by the pipeline loop: all
`RawComment` fields plus the five derived fields. -/
structure EnrichedComment where
  id : String
  author : String
  text : String
  published_at : String
  like_count : Nat
  updated_at : String
  original_language : String
  translated_text : String
  sentiment : String
  polarity : ℚ
  is_toxic : Bool
  deriving Repr, DecidableEq

/-- The body of the `for` loop of `process_comments` (lines 58–87 of
`main.py`): detect the language of the raw text, translate when not English,
score sentiment and toxicity on the translated text, merge. -/
def enrich_comment (det : String → Option String)
    (tr : String → Option (Option String)) (scorer : String → Option ℚ)
    (c : RawComment) : EnrichedComment :=
  let original_language := detect_language det c.text
  let translated_text :=
    if original_language ≠ "en" then translate_to_english det tr c.text none
    else c.text
  let sentiment_result := analyze_sentiment scorer translated_text
  let is_toxic := detect_toxicity translated_text
  { id := c.id, author := c.author, text := c.text,
    published_at := c.published_at, like_count := c.like_count,
    updated_at := c.updated_at,
    original_language := original_language,
    translated_text := translated_text,
    sentiment := sentiment_result.sentiment,
    polarity := sentiment_result.polarity,
    is_toxic := is_toxic }

/-- The enrichment loop of `process_comments` over an already fetched comment
list (the fetch itself is the `youtube_api` model above): the loop appends one
enriched record per input comment, in input order. -/
def process_comments (det : String → Option String)
    (tr : String → Option (Option String)) (scorer : String → Option ℚ)
    (comments : List RawComment) : List EnrichedComment :=
  comments.map (enrich_comment det tr scorer)

/-- `dict(Counter(xs))`: keys in first-occurrence order, each mapped to its
number of occurrences in `xs`. -/
def counter : List String → List (String × Nat)
  | [] => []
  | x :: rest =>
    (x, rest.count x + 1) :: counter (rest.filter (fun y => y != x))
termination_by l => l.length
decreasing_by
  simp only [List.length_cons]
  exact Nat.lt_succ_of_le (List.length_filter_le _ _)

/-- `c['text'][:100] + '...' if len(c['text']) > 100 else c['text']`. -/
def truncate_excerpt (s : String) : String :=
  if s.length > 100 then String.mk (s.data.take 100) ++ "..." else s

/-- The summary dictionary returned by `get_analysis_summary`. -/
structure AnalysisSummary where
  total_comments : Nat
  sentiment_distribution : List (String × Nat)
  language_distribution : List (String × Nat)
  toxic_comments_count : Nat
  sample_positive : List String
  sample_negative : List String
  sample_neutral : List String
  deriving Repr, DecidableEq

/-- `get_analysis_summary(processed_comments)`. -/
def get_analysis_summary (pcs : List EnrichedComment) : AnalysisSummary :=
  let sentiments := pcs.map (fun c => c.sentiment)
  let languages := pcs.map (fun c => c.original_language)
  let toxic_comments := pcs.filter (fun c => c.is_toxic)
  let positive_comments := (pcs.filter (fun c => c.sentiment == "Positive")).take 3
  let negative_comments := (pcs.filter (fun c => c.sentiment == "Negative")).take 3
  let neutral_comments := (pcs.filter (fun c => c.sentiment == "Neutral")).take 3
  { total_comments := pcs.length,
    sentiment_distribution := counter sentiments,
    language_distribution := counter languages,
    toxic_comments_count := toxic_comments.length,
    sample_positive := positive_comments.map (fun c => truncate_excerpt c.text),
    sample_negative := negative_comments.map (fun c => truncate_excerpt c.text),
    sample_neutral := neutral_comments.map (fun c => truncate_excerpt c.text) }

/-! ### `app.py` — interactive API sample extraction -/

/-- The `sample_comments` value built by the `/api/analyze` endpoint
(`app.py` lines 164–168): for each label the first five matching texts, in
pipeline order, with no truncation. -/
def api_sample_comments (pcs : List EnrichedComment) :
    List String × List String × List String :=
  (((pcs.filter (fun c => c.sentiment == "Positive")).map (fun c => c.text)).take 5,
   ((pcs.filter (fun c => c.sentiment == "Negative")).map (fun c => c.text)).take 5,
   ((pcs.filter (fun c => c.sentiment == "Neutral")).map (fun c => c.text)).take 5)

/-! ### `dashboard.py` — top-comment ranking

Python's `sorted` is a stable sort; any stable sort by the same key computes
the same list, so it is embedded as a stable insertion sort (`ordInsert` puts
the new element, which precedes the already sorted ones in the original list,
before the first element it compares `le` to). -/

/-- Insert `x` before the first element `y` of the sorted list with
`le x y`. -/
def ordInsert (le : α → α → Bool) (x : α) : List α → List α
  | [] => [x]
  | y :: ys => if le x y then x :: y :: ys else y :: ordInsert le x ys

/-- Stable insertion sort. -/
def insSort (le : α → α → Bool) : List α → List α
  | [] => []
  | x :: xs => ordInsert le x (insSort le xs)

/-- `get_top_comments(comments_data, sentiment, top_n)`: filter by label, sort
by polarity (descending for `'Positive'`, ascending otherwise —
`sorted(..., reverse=True)` keeps the order of equal keys), take `top_n`. -/
def get_top_comments (comments_data : List EnrichedComment) (sentiment : String)
    (top_n : Nat) : List EnrichedComment :=
  let filtered := comments_data.filter (fun c => c.sentiment == sentiment)
  let sorted_comments :=
    if sentiment == "Positive" then
      insSort (fun a b => decide (b.polarity ≤ a.polarity)) filtered
    else
      insSort (fun a b => decide (a.polarity ≤ b.polarity)) filtered
  sorted_comments.take top_n

/-! ### Concrete fixtures used by witnesses and counterexamples -/

/-- A detector oracle that always answers French. -/
def detFr : String → Option String := fun _ => some "fr"

/-- A translation backend that always returns the empty string. -/
def trEmpty : String → Option (Option String) := fun _ => some (some "")

/-- A raw comment fixture. -/
def rawC1 : RawComment :=
  { id := "c1", author := "alice", text := "great video, love it",
    published_at := "2024-01-01", like_count := 3, updated_at := "2024-01-02" }

/-! ### Helper lemmas: sentiment thresholds -/

theorem sentimentLabel_pos_iff (p : ℚ) : sentimentLabel p = "Positive" ↔ 1/10 < p := by
  unfold sentimentLabel
  split
  · rename_i h; exact iff_of_true rfl h
  · split
    · rename_i h1 h2; exact iff_of_false (by decide) h1
    · rename_i h1 h2; exact iff_of_false (by decide) h1

theorem sentimentLabel_neg_iff (p : ℚ) : sentimentLabel p = "Negative" ↔ p < -(1/10) := by
  unfold sentimentLabel
  split
  · rename_i h; exact iff_of_false (by decide) (by intro hc; linarith)
  · split
    · rename_i h1 h2; exact iff_of_true rfl h2
    · rename_i h1 h2; exact iff_of_false (by decide) h2

theorem sentimentLabel_neu_iff (p : ℚ) :
    sentimentLabel p = "Neutral" ↔ (-(1/10) ≤ p ∧ p ≤ 1/10) := by
  unfold sentimentLabel
  split
  · rename_i h
    exact iff_of_false (by decide) (fun hc => absurd h (not_lt.mpr hc.2))
  · split
    · rename_i h1 h2
      exact iff_of_false (by decide) (fun hc => absurd h2 (not_lt.mpr hc.1))
    · rename_i h1 h2
      exact iff_of_true rfl ⟨not_lt.mp h2, not_lt.mp h1⟩

/-- C2: for every text, `analyze_sentiment` returns a label that is a total
deterministic function of the polarity it returns — `Positive` iff the
polarity exceeds `0.1`, `Negative` iff it is below `-0.1`, `Neutral`
otherwise, with both boundary values mapping to `Neutral` — and when the
underlying scorer raises it returns `{'Neutral', 0.0}` (the function is total,
so no exception ever propagates). -/
theorem analyze_sentiment_spec (scorer : String → Option ℚ) (text : String) :
    (analyze_sentiment scorer text).sentiment
        = sentimentLabel (analyze_sentiment scorer text).polarity ∧
    ((analyze_sentiment scorer text).sentiment = "Positive"
        ↔ 1/10 < (analyze_sentiment scorer text).polarity) ∧
    ((analyze_sentiment scorer text).sentiment = "Negative"
        ↔ (analyze_sentiment scorer text).polarity < -(1/10)) ∧
    ((analyze_sentiment scorer text).sentiment = "Neutral"
        ↔ (-(1/10) ≤ (analyze_sentiment scorer text).polarity
            ∧ (analyze_sentiment scorer text).polarity ≤ 1/10)) ∧
    sentimentLabel (1/10) = "Neutral" ∧ sentimentLabel (-(1/10)) = "Neutral" ∧
    (scorer text = none →
        analyze_sentiment scorer text = ⟨"Neutral", 0⟩) := by
  have hfun : (analyze_sentiment scorer text).sentiment
      = sentimentLabel (analyze_sentiment scorer text).polarity := by
    unfold analyze_sentiment
    match scorer text with
    | some p => rfl
    | none =>
      show "Neutral" = sentimentLabel 0
      exact ((sentimentLabel_neu_iff 0).mpr (by norm_num)).symm
  refine ⟨hfun, ?_, ?_, ?_, ?_, ?_, ?_⟩
  · rw [hfun]; exact sentimentLabel_pos_iff _
  · rw [hfun]; exact sentimentLabel_neg_iff _
  · rw [hfun]; exact sentimentLabel_neu_iff _
  · exact (sentimentLabel_neu_iff _).mpr (by norm_num)
  · exact (sentimentLabel_neu_iff _).mpr (by norm_num)
  · intro h; unfold analyze_sentiment; rw [h]

/-- Witness for C2: a scorer that raises yields `{'Neutral', 0.0}`. -/
theorem analyze_sentiment_spec_witness :
    analyze_sentiment (fun _ => none) "whatever" = ⟨"Neutral", 0⟩ :=
  (analyze_sentiment_spec (fun _ => none) "whatever").2.2.2.2.2.2 rfl

/-- C4: `detect_language` returns `"unknown"` for empty, whitespace-only, or
alphanumeric-free input, in each case without invoking the underlying
statistical detector (the invocation flag is `false`, so the result is
independent of the oracle `det`); any detector failure is mapped to
`"unknown"`; the function is total, so it never raises. -/
theorem detect_language_spec (det : String → Option String) (text : String) :
    (text = "" → detect_language_impl det text = ("unknown", false)) ∧
    (text.data.all (fun c => c.isWhitespace) = true →
        detect_language_impl det text = ("unknown", false)) ∧
    (text.data.all (fun c => !c.isAlphanum) = true →
        detect_language_impl det text = ("unknown", false)) ∧
    (det text = none → detect_language det text = "unknown") := by
  refine ⟨?_, ?_, ?_, ?_⟩
  · intro h; subst h; rfl
  · intro h; unfold detect_language_impl
    rw [h]; simp
  · intro h; simp [detect_language_impl, h]
  · intro h; unfold detect_language detect_language_impl
    split
    · rfl
    · split
      · rfl
      · rw [h]

/-- Witness for C4: a symbols-only comment is classified `"unknown"` with no
detector call, and a raising detector also yields `"unknown"`. -/
theorem detect_language_spec_witness :
    detect_language_impl detFr ":-) !!" = ("unknown", false) ∧
    detect_language (fun _ => none) "bonjour" = "unknown" :=
  ⟨(detect_language_spec detFr ":-) !!").2.2.1 (by decide),
   (detect_language_spec (fun _ => none) "bonjour").2.2.2 rfl⟩

/-- Counterexample for C3 as stated: the code only checks the backend result
against `None`; when the backend returns the *empty string* on the non-empty
input `"bonjour"` (supplied source language `"fr"`), `translate_to_english`
returns the empty string — not the original text — so the result can be empty
on a non-empty input. -/
theorem translate_to_english_empty_counterexample :
    translate_to_english detFr trEmpty "bonjour" (some "fr") = "" ∧
    "bonjour" ≠ "" := by
  exact ⟨rfl, by decide⟩

/-- C3 (amended): `translate_to_english` returns the input unchanged without
invoking the backend when the supplied or detected source language is `"en"`
or `"unknown"` (and for empty/whitespace-only input); when the backend raises
or returns a null (`None`) result it returns the original text unchanged, and
no exception propagates — but a backend result that is the empty string is
returned as-is, so the result is not guaranteed non-empty. -/
theorem translate_to_english_spec (det : String → Option String)
    (tr : String → Option (Option String)) (text : String)
    (src_lang : Option String) :
    (∀ src, src_lang = some src → (src = "en" ∨ src = "unknown") →
        translate_impl det tr text src_lang = (text, false)) ∧
    (src_lang = none →
        (detect_language det text = "en" ∨ detect_language det text = "unknown") →
        translate_impl det tr text none = (text, false)) ∧
    (tr text = none → translate_to_english det tr text src_lang = text) ∧
    (tr text = some none → translate_to_english det tr text src_lang = text) ∧
    ((text = "" ∨ text.data.all (fun c => c.isWhitespace) = true) →
        translate_impl det tr text src_lang = (text, false)) := by
  refine ⟨?_, ?_, ?_, ?_, ?_⟩
  · intro src hsrc hen
    subst hsrc
    simp [translate_impl, hen]
  · intro hnone hen
    simp [translate_impl, hen]
  · intro h
    simp only [translate_to_english, translate_impl]
    split
    · rfl
    · split
      · rfl
      · rw [h]
  · intro h
    simp only [translate_to_english, translate_impl]
    split
    · rfl
    · split
      · rfl
      · rw [h]
  · rintro (h | h)
    · subst h; rfl
    · simp only [translate_impl]
      rw [h]; simp

/-- Witness for C3 (amended): English input is returned unchanged with no
backend call; a backend returning `None` leaves the text unchanged. -/
theorem translate_to_english_spec_witness :
    translate_impl detFr trEmpty "hola" (some "en") = ("hola", false) ∧
    translate_to_english detFr (fun _ => some none) "hola" (some "fr") = "hola" :=
  ⟨(translate_to_english_spec detFr trEmpty "hola" (some "en")).1 "en" rfl (Or.inl rfl),
   (translate_to_english_spec detFr (fun _ => some none) "hola" (some "fr")).2.2.2.1 rfl⟩

/-- C1: `process_comments` maps each raw comment, in order, to exactly one
enriched record (same length, same order) that retains every raw field and
adds: the language detected from the raw text, the translated text (the raw
text itself when the detected language is English), and a sentiment label,
polarity and toxicity flag all computed on the translated text. -/
theorem process_comments_spec (det : String → Option String)
    (tr : String → Option (Option String)) (scorer : String → Option ℚ)
    (comments : List RawComment) :
    (process_comments det tr scorer comments).length = comments.length ∧
    ∀ (i : Nat) (c : RawComment), comments[i]? = some c →
      ∃ e : EnrichedComment, (process_comments det tr scorer comments)[i]? = some e ∧
        e.id = c.id ∧ e.author = c.author ∧ e.text = c.text ∧
        e.published_at = c.published_at ∧ e.like_count = c.like_count ∧
        e.updated_at = c.updated_at ∧
        e.original_language = detect_language det c.text ∧
        e.translated_text = (if detect_language det c.text ≠ "en"
            then translate_to_english det tr c.text none else c.text) ∧
        e.sentiment = (analyze_sentiment scorer e.translated_text).sentiment ∧
        e.polarity = (analyze_sentiment scorer e.translated_text).polarity ∧
        e.is_toxic = detect_toxicity e.translated_text := by
  constructor
  · exact List.length_map _ _
  · intro i c h
    refine ⟨enrich_comment det tr scorer c, ?_, rfl, rfl, rfl, rfl, rfl, rfl,
      rfl, rfl, rfl, rfl, rfl⟩
    unfold process_comments
    rw [List.getElem?_map, h]; rfl

/-- Witness for C1: the single-element pipeline on a concrete comment. -/
theorem process_comments_spec_witness :
    ∃ e : EnrichedComment,
      (process_comments detFr trEmpty (fun _ => some (2/10)) [rawC1])[0]?
        = some e ∧
      e.id = rawC1.id ∧ e.author = rawC1.author ∧ e.text = rawC1.text ∧
      e.published_at = rawC1.published_at ∧ e.like_count = rawC1.like_count ∧
      e.updated_at = rawC1.updated_at ∧
      e.original_language = detect_language detFr rawC1.text ∧
      e.translated_text = (if detect_language detFr rawC1.text ≠ "en"
          then translate_to_english detFr trEmpty rawC1.text none else rawC1.text) ∧
      e.sentiment = (analyze_sentiment (fun _ => some (2/10)) e.translated_text).sentiment ∧
      e.polarity = (analyze_sentiment (fun _ => some (2/10)) e.translated_text).polarity ∧
      e.is_toxic = detect_toxicity e.translated_text :=
  (process_comments_spec detFr trEmpty (fun _ => some (2/10)) [rawC1]).2 0 rawC1 rfl

/-! ### Helper lemmas: substring matching -/

theorem isPre_iff (n : List Char) : ∀ h : List Char,
    isPre n h = true ↔ ∃ b, h = n ++ b := by
  induction n with
  | nil => intro h; simp [isPre]
  | cons c n ih =>
    intro h
    cases h with
    | nil =>
      simp only [isPre, List.cons_append]
      constructor
      · intro hc; exact absurd hc (by decide)
      · rintro ⟨b, hb⟩; exact absurd hb (by simp)
    | cons d hs =>
      simp only [isPre, Bool.and_eq_true, beq_iff_eq, ih]
      constructor
      · rintro ⟨rfl, b, rfl⟩; exact ⟨b, rfl⟩
      · rintro ⟨b, hb⟩
        rw [List.cons_append] at hb
        injection hb with h1 h2
        exact ⟨h1.symm, b, h2⟩

theorem containsSub_iff (n h : List Char) :
    containsSub n h = true ↔ SubOf n h := by
  induction h with
  | nil =>
    simp only [containsSub, SubOf, isPre_iff]
    constructor
    · rintro ⟨b, hb⟩
      exact ⟨[], b, by simpa using hb⟩
    · rintro ⟨a, b, hab⟩
      have h0 := List.append_eq_nil.mp hab.symm
      have h1 := List.append_eq_nil.mp h0.1
      exact ⟨[], by simp [h1.2]⟩
  | cons d hs ih =>
    simp only [containsSub, Bool.or_eq_true, isPre_iff, ih, SubOf]
    constructor
    · rintro (⟨b, hb⟩ | ⟨a, b, hab⟩)
      · exact ⟨[], b, by simpa using hb⟩
      · exact ⟨d :: a, b, by simp [hab]⟩
    · rintro ⟨a, b, hab⟩
      cases a with
      | nil => exact Or.inl ⟨b, by simpa using hab⟩
      | cons x a =>
        rw [List.cons_append, List.cons_append] at hab
        injection hab with h1 h2
        exact Or.inr ⟨a, b, h2⟩

/-- C5: `detect_toxicity` is true exactly when the lowercased text contains a
blocklisted keyword as a substring or matches one of the fixed regex
patterns; in particular it fires on each blocklisted keyword embedded in
arbitrary surrounding text regardless of case, and is false on a clean
sentence containing no keyword and matching no pattern.  It is a pure, total
Lean function, so it never raises. -/
theorem detect_toxicity_spec (text : String) :
    (detect_toxicity text = true ↔
      ((∃ k ∈ toxicity_keywords, SubOf k.data (lowerChars text.data)) ∨
        ∃ p ∈ toxic_patterns, reSearch p (lowerChars text.data) = true)) ∧
    (∀ k ∈ toxicity_keywords, ∀ pre w suf : List Char, lowerChars w = k.data →
        detect_toxicity (String.mk (pre ++ w ++ suf)) = true) ∧
    detect_toxicity "this video is wonderful, thanks for sharing" = false := by
  have hiff : ∀ t : String, detect_toxicity t = true ↔
      ((∃ k ∈ toxicity_keywords, SubOf k.data (lowerChars t.data)) ∨
        ∃ p ∈ toxic_patterns, reSearch p (lowerChars t.data) = true) := by
    intro t
    unfold detect_toxicity
    simp only [Bool.or_eq_true, List.any_eq_true, containsSub_iff]
  refine ⟨hiff text, ?_, by decide⟩
  intro k hk pre w suf hw
  rw [hiff]
  left
  refine ⟨k, hk, lowerChars pre, lowerChars suf, ?_⟩
  show lowerChars (pre ++ w ++ suf) = _
  simp only [lowerChars] at hw ⊢
  simp [hw]

/-- Witness for C5: the keyword `"stupid"`, mixed-case, embedded in
surrounding text, is flagged toxic. -/
theorem detect_toxicity_spec_witness :
    detect_toxicity (String.mk ("you ".data ++ "StUpId".data ++ " example".data))
      = true :=
  (detect_toxicity_spec "x").2.1 "stupid" (by decide)
    "you ".data "StUpId".data " example".data (by decide)

/-! ### Helper lemmas: stable insertion sort -/

theorem ordInsert_perm (le : α → α → Bool) (x : α) (l : List α) :
    (ordInsert le x l).Perm (x :: l) := by
  induction l with
  | nil => exact List.Perm.refl _
  | cons y ys ih =>
    unfold ordInsert
    split
    · exact List.Perm.refl _
    · exact ((ih.cons y).trans (List.Perm.swap x y ys))

theorem insSort_perm (le : α → α → Bool) (l : List α) :
    (insSort le l).Perm l := by
  induction l with
  | nil => exact List.Perm.refl _
  | cons x xs ih =>
    exact (ordInsert_perm le x (insSort le xs)).trans (ih.cons x)

theorem ordInsert_pairwise (le : α → α → Bool)
    (htot : ∀ a b, le a b = true ∨ le b a = true)
    (htrans : ∀ a b c, le a b = true → le b c = true → le a c = true)
    (x : α) (l : List α) (hl : l.Pairwise (fun a b => le a b = true)) :
    (ordInsert le x l).Pairwise (fun a b => le a b = true) := by
  induction l with
  | nil => simp [ordInsert]
  | cons y ys ih =>
    rw [List.pairwise_cons] at hl
    unfold ordInsert
    split
    · rename_i hxy
      rw [List.pairwise_cons]
      refine ⟨?_, List.pairwise_cons.mpr hl⟩
      intro b hb
      rcases List.mem_cons.mp hb with rfl | hb
      · exact hxy
      · exact htrans x y b hxy (hl.1 b hb)
    · rename_i hxy
      rw [List.pairwise_cons]
      have hyx : le y x = true := by
        rcases htot x y with h | h
        · exact absurd h hxy
        · exact h
      refine ⟨?_, ih hl.2⟩
      intro b hb
      have hb' := (ordInsert_perm le x ys).mem_iff.mp hb
      rcases List.mem_cons.mp hb' with rfl | hb'
      · exact hyx
      · exact hl.1 b hb'

theorem insSort_pairwise (le : α → α → Bool)
    (htot : ∀ a b, le a b = true ∨ le b a = true)
    (htrans : ∀ a b c, le a b = true → le b c = true → le a c = true)
    (l : List α) :
    (insSort le l).Pairwise (fun a b => le a b = true) := by
  induction l with
  | nil => simp [insSort]
  | cons x xs ih => exact ordInsert_pairwise le htot htrans x _ ih

theorem filter_ordInsert_pos (le : α → α → Bool) (p : α → Bool) (x : α)
    (hp : p x = true) (hskip : ∀ y, le x y = false → p y = false)
    (l : List α) : (ordInsert le x l).filter p = x :: l.filter p := by
  induction l with
  | nil => simp [ordInsert, hp]
  | cons y ys ih =>
    unfold ordInsert
    split
    · simp [List.filter_cons, hp]
    · rename_i hxy
      have hpy : p y = false := hskip y (Bool.eq_false_iff.mpr hxy)
      simp [List.filter_cons, hpy, ih]

theorem filter_ordInsert_neg (le : α → α → Bool) (p : α → Bool) (x : α)
    (hp : p x = false) (l : List α) :
    (ordInsert le x l).filter p = l.filter p := by
  induction l with
  | nil => simp [ordInsert, hp]
  | cons y ys ih =>
    unfold ordInsert
    split
    · simp [List.filter_cons, hp]
    · simp [List.filter_cons, ih]

theorem filter_insSort (le : α → α → Bool) (p : α → Bool)
    (hskip : ∀ a b, p a = true → le a b = false → p b = false) (l : List α) :
    (insSort le l).filter p = l.filter p := by
  induction l with
  | nil => rfl
  | cons x xs ih =>
    show (ordInsert le x (insSort le xs)).filter p = (x :: xs).filter p
    cases hpx : p x with
    | true =>
      rw [filter_ordInsert_pos le p x hpx (hskip x · hpx ·), ih]
      simp [List.filter_cons, hpx]
    | false =>
      rw [filter_ordInsert_neg le p x hpx, ih]
      simp [List.filter_cons, hpx]

/-- C9: `get_top_comments` returns the first `top_n` comments of the given
label after sorting by polarity — descending for `'Positive'`, ascending for
`'Negative'` — and the sort is stable: restricted to any fixed polarity, the
sorted list keeps exactly the original relative order of the label-filtered
input.  (The sorted list `s` below is uniquely determined by the stated
permutation, ordering and stability properties.) -/
theorem get_top_comments_spec (data : List EnrichedComment) (n : Nat) :
    (∃ s : List EnrichedComment,
      get_top_comments data "Positive" n = s.take n ∧
      s.Perm (data.filter (fun c => c.sentiment == "Positive")) ∧
      s.Pairwise (fun a b => b.polarity ≤ a.polarity) ∧
      ∀ q : ℚ, s.filter (fun c => decide (c.polarity = q))
          = (data.filter (fun c => c.sentiment == "Positive")).filter
              (fun c => decide (c.polarity = q))) ∧
    (∃ s : List EnrichedComment,
      get_top_comments data "Negative" n = s.take n ∧
      s.Perm (data.filter (fun c => c.sentiment == "Negative")) ∧
      s.Pairwise (fun a b => a.polarity ≤ b.polarity) ∧
      ∀ q : ℚ, s.filter (fun c => decide (c.polarity = q))
          = (data.filter (fun c => c.sentiment == "Negative")).filter
              (fun c => decide (c.polarity = q))) := by
  constructor
  · refine ⟨insSort (fun a b => decide (b.polarity ≤ a.polarity))
      (data.filter (fun c => c.sentiment == "Positive")), ?_, ?_, ?_, ?_⟩
    · simp [get_top_comments]
    · exact insSort_perm _ _
    · refine (insSort_pairwise _ ?_ ?_ _).imp (fun h => of_decide_eq_true h)
      · intro a b
        rcases le_total b.polarity a.polarity with h | h
        · exact Or.inl (decide_eq_true h)
        · exact Or.inr (decide_eq_true h)
      · intro a b c h1 h2
        exact decide_eq_true (le_trans (of_decide_eq_true h2) (of_decide_eq_true h1))
    · intro q
      refine filter_insSort _ _ ?_ _
      intro a b hpa hle
      have ha : a.polarity = q := of_decide_eq_true hpa
      have hab : a.polarity < b.polarity :=
        lt_of_not_le (fun hc => by simp [decide_eq_true hc] at hle)
      exact decide_eq_false (by rw [← ha]; exact ne_of_gt hab)
  · refine ⟨insSort (fun a b => decide (a.polarity ≤ b.polarity))
      (data.filter (fun c => c.sentiment == "Negative")), ?_, ?_, ?_, ?_⟩
    · simp [get_top_comments]
    · exact insSort_perm _ _
    · refine (insSort_pairwise _ ?_ ?_ _).imp (fun h => of_decide_eq_true h)
      · intro a b
        rcases le_total a.polarity b.polarity with h | h
        · exact Or.inl (decide_eq_true h)
        · exact Or.inr (decide_eq_true h)
      · intro a b c h1 h2
        exact decide_eq_true (le_trans (of_decide_eq_true h1) (of_decide_eq_true h2))
    · intro q
      refine filter_insSort _ _ ?_ _
      intro a b hpa hle
      have ha : a.polarity = q := of_decide_eq_true hpa
      have hab : b.polarity < a.polarity :=
        lt_of_not_le (fun hc => by simp [decide_eq_true hc] at hle)
      exact decide_eq_false (by rw [← ha]; exact ne_of_lt hab)

/-! ### Helper lemmas: `counter` (the `dict(Counter(...))` model) -/

theorem length_count_filter (x : String) (rest : List String) :
    rest.length = rest.count x + (rest.filter (fun y => y != x)).length := by
  induction rest with
  | nil => rfl
  | cons y ys ih =>
    simp only [List.length_cons, List.filter_cons]
    by_cases h : y = x
    · subst h
      rw [List.count_cons_self]
      simp only [bne_self_eq_false]
      rw [if_neg (by simp)]
      omega
    · rw [List.count_cons_of_ne (Ne.symm h)]
      rw [if_pos (bne_iff_ne.mpr h)]
      simp only [List.length_cons]
      omega

theorem counter_sum (xs : List String) :
    ((counter xs).map Prod.snd).sum = xs.length := by
  induction xs using counter.induct with
  | case1 => rw [counter]; rfl
  | case2 x rest ih =>
    rw [counter]
    simp only [List.map_cons, List.sum_cons, ih, List.length_cons]
    have := length_count_filter x rest
    omega

theorem counter_mem (xs : List String) (k : String) (c : Nat)
    (h : (k, c) ∈ counter xs) : k ∈ xs ∧ c = xs.count k := by
  induction xs using counter.induct with
  | case1 => rw [counter] at h; cases h
  | case2 x rest ih =>
    rw [counter] at h
    rcases List.mem_cons.mp h with heq | htail
    · obtain ⟨hk, hc⟩ := Prod.mk.inj heq
      subst hk; subst hc
      exact ⟨List.mem_cons_self _ _, (List.count_cons_self _ _).symm⟩
    · obtain ⟨hmem, hc⟩ := ih htail
      obtain ⟨hr, hne⟩ := List.mem_filter.mp hmem
      have hkx : k ≠ x := bne_iff_ne.mp hne
      refine ⟨List.mem_cons_of_mem _ hr, ?_⟩
      rw [hc, @List.count_filter String _ _ (fun y => y != x) k rest hne,
        List.count_cons_of_ne hkx]

theorem counter_not_mem (xs : List String) (k : String) (hk : k ∉ xs) :
    ∀ c, (k, c) ∉ counter xs := by
  intro c hc
  exact hk (counter_mem xs k c hc).1

/-! ### Helper lemmas: sample extraction -/

theorem take_map_len (l : List α) (f : α → β) (n : Nat) :
    ((l.take n).map f).length ≤ n := by
  rw [List.length_map, List.length_take]
  exact min_le_left _ _

theorem take_map_get (l : List α) (f : α → β) (n i : Nat) (h : i < n) :
    ((l.take n).map f)[i]? = (l[i]?).map f := by
  rw [List.getElem?_map, List.getElem?_take, if_pos h]

theorem truncate_excerpt_length (s : String) : (truncate_excerpt s).length ≤ 103 := by
  unfold truncate_excerpt
  split
  · show (String.mk (s.data.take 100) ++ "...").length ≤ 103
    rw [String.length_append]
    have h2 : (String.mk (s.data.take 100)).length ≤ 100 := by
      show (s.data.take 100).length ≤ 100
      rw [List.length_take]
      exact min_le_left _ _
    have h3 : ("..." : String).length = 3 := by decide
    omega
  · rename_i h
    omega

/-- Fixtures: a long (151-character) positive comment used to exhibit the
missing truncation in the interactive API sample lists. -/
def longText : String := String.mk (List.replicate 151 'a')

/-- An enriched comment with the 151-character text. -/
def longC : EnrichedComment :=
  { id := "c9", author := "bob", text := longText,
    published_at := "2024-01-01", like_count := 0, updated_at := "2024-01-01",
    original_language := "en", translated_text := longText,
    sentiment := "Positive", polarity := 1/2, is_toxic := false }

set_option maxRecDepth 4000 in
/-- Counterexample for C8 as stated: in the interactive API
(`app.py` `/api/analyze`), the per-label sample lists are *not* truncated —
the 151-character comment text appears verbatim (length 151 > 103, the
maximum length any 100-character-plus-ellipsis excerpt can have). -/
theorem api_sample_not_truncated_counterexample :
    (api_sample_comments [longC]).1 = [longText] ∧
    longText.length = 151 ∧ ¬(longText.length ≤ 103) := by
  refine ⟨by decide, by decide, by decide⟩

/-- C8 (amended): over `K` processed comments the summary reports
`total_comments = K` and its sentiment distribution sums to `K`; each
per-label sample list has at most 3 entries in the standalone summary and at
most 5 in the interactive API, both taken in pipeline-output order; the
standalone summary truncates each excerpt to at most 100 characters plus an
ellipsis (so at most 103 characters), while the interactive API returns the
full comment text untruncated. -/
theorem get_analysis_summary_spec (pcs : List EnrichedComment) :
    (get_analysis_summary pcs).total_comments = pcs.length ∧
    (((get_analysis_summary pcs).sentiment_distribution.map Prod.snd).sum
        = pcs.length) ∧
    ((get_analysis_summary pcs).sample_positive.length ≤ 3 ∧
      (get_analysis_summary pcs).sample_negative.length ≤ 3 ∧
      (get_analysis_summary pcs).sample_neutral.length ≤ 3) ∧
    (∀ i : Nat, i < 3 →
      (get_analysis_summary pcs).sample_positive[i]?
          = ((pcs.filter (fun c => c.sentiment == "Positive"))[i]?).map
              (fun c => truncate_excerpt c.text) ∧
      (get_analysis_summary pcs).sample_negative[i]?
          = ((pcs.filter (fun c => c.sentiment == "Negative"))[i]?).map
              (fun c => truncate_excerpt c.text) ∧
      (get_analysis_summary pcs).sample_neutral[i]?
          = ((pcs.filter (fun c => c.sentiment == "Neutral"))[i]?).map
              (fun c => truncate_excerpt c.text)) ∧
    (∀ s ∈ (get_analysis_summary pcs).sample_positive, s.length ≤ 103) ∧
    (∀ s ∈ (get_analysis_summary pcs).sample_negative, s.length ≤ 103) ∧
    (∀ s ∈ (get_analysis_summary pcs).sample_neutral, s.length ≤ 103) ∧
    ((api_sample_comments pcs).1.length ≤ 5 ∧
      (api_sample_comments pcs).2.1.length ≤ 5 ∧
      (api_sample_comments pcs).2.2.length ≤ 5) ∧
    (∀ i : Nat, i < 5 →
      (api_sample_comments pcs).1[i]?
          = ((pcs.filter (fun c => c.sentiment == "Positive"))[i]?).map
              (fun c => c.text) ∧
      (api_sample_comments pcs).2.1[i]?
          = ((pcs.filter (fun c => c.sentiment == "Negative"))[i]?).map
              (fun c => c.text) ∧
      (api_sample_comments pcs).2.2[i]?
          = ((pcs.filter (fun c => c.sentiment == "Neutral"))[i]?).map
              (fun c => c.text)) := by
  have hmem103 : ∀ (l : List EnrichedComment) (s : String),
      s ∈ (l.take 3).map (fun c => truncate_excerpt c.text) → s.length ≤ 103 := by
    intro l s hs
    obtain ⟨c, -, rfl⟩ := List.mem_map.mp hs
    exact truncate_excerpt_length _
  refine ⟨rfl, ?_, ⟨take_map_len _ _ _, take_map_len _ _ _, take_map_len _ _ _⟩,
    ?_, hmem103 _, hmem103 _, hmem103 _, ?_, ?_⟩
  · show ((counter (pcs.map (fun c => c.sentiment))).map Prod.snd).sum = pcs.length
    rw [counter_sum, List.length_map]
  · intro i h
    exact ⟨take_map_get _ _ _ _ h, take_map_get _ _ _ _ h, take_map_get _ _ _ _ h⟩
  · refine ⟨?_, ?_, ?_⟩
    · show (((pcs.filter (fun c => c.sentiment == "Positive")).map
          (fun c => c.text)).take 5).length ≤ 5
      rw [List.length_take]; exact min_le_left _ _
    · show (((pcs.filter (fun c => c.sentiment == "Negative")).map
          (fun c => c.text)).take 5).length ≤ 5
      rw [List.length_take]; exact min_le_left _ _
    · show (((pcs.filter (fun c => c.sentiment == "Neutral")).map
          (fun c => c.text)).take 5).length ≤ 5
      rw [List.length_take]; exact min_le_left _ _
  · intro i h
    refine ⟨?_, ?_, ?_⟩
    · show ((((pcs.filter (fun c => c.sentiment == "Positive")).map
          (fun c => c.text)).take 5))[i]? = _
      rw [List.getElem?_take, if_pos h, List.getElem?_map]
    · show ((((pcs.filter (fun c => c.sentiment == "Negative")).map
          (fun c => c.text)).take 5))[i]? = _
      rw [List.getElem?_take, if_pos h, List.getElem?_map]
    · show ((((pcs.filter (fun c => c.sentiment == "Neutral")).map
          (fun c => c.text)).take 5))[i]? = _
      rw [List.getElem?_take, if_pos h, List.getElem?_map]

/-- Witness for C8 (amended): the first standalone sample of the
single-long-comment batch is the truncated excerpt of its text. -/
theorem get_analysis_summary_spec_witness :
    (get_analysis_summary [longC]).sample_positive[0]?
        = (([longC].filter (fun c => c.sentiment == "Positive"))[0]?).map
            (fun c => truncate_excerpt c.text) :=
  (((get_analysis_summary_spec [longC]).2.2.2.1) 0 (by decide)).1

/-- C10: both distributions of the summary contain a key only for values that
actually occur among the input comments: any `(key, count)` pair present has
`count ≥ 1` (indeed `count` is the exact number of occurrences), and a
sentiment label or language occurring zero times is absent from the mapping
(rather than mapped to 0) — so a consumer looking up an absent label must
supply its own default. -/
theorem distribution_keys_spec (pcs : List EnrichedComment) :
    (∀ (k : String) (c : Nat),
      (k, c) ∈ (get_analysis_summary pcs).sentiment_distribution →
        1 ≤ c ∧ c = (pcs.map (fun x => x.sentiment)).count k ∧
          ∃ x ∈ pcs, x.sentiment = k) ∧
    (∀ k : String, (∀ x ∈ pcs, x.sentiment ≠ k) →
      ∀ c : Nat, (k, c) ∉ (get_analysis_summary pcs).sentiment_distribution) ∧
    (∀ (k : String) (c : Nat),
      (k, c) ∈ (get_analysis_summary pcs).language_distribution →
        1 ≤ c ∧ c = (pcs.map (fun x => x.original_language)).count k ∧
          ∃ x ∈ pcs, x.original_language = k) ∧
    (∀ k : String, (∀ x ∈ pcs, x.original_language ≠ k) →
      ∀ c : Nat, (k, c) ∉ (get_analysis_summary pcs).language_distribution) := by
  have main : ∀ (f : EnrichedComment → String) (k : String) (c : Nat),
      (k, c) ∈ counter (pcs.map f) →
        1 ≤ c ∧ c = (pcs.map f).count k ∧ ∃ x ∈ pcs, f x = k := by
    intro f k c h
    obtain ⟨hmem, hc⟩ := counter_mem _ _ _ h
    obtain ⟨x, hx, hfx⟩ := List.mem_map.mp hmem
    exact ⟨by rw [hc]; exact List.count_pos_iff.mpr hmem, hc, x, hx, hfx⟩
  have absent : ∀ (f : EnrichedComment → String) (k : String),
      (∀ x ∈ pcs, f x ≠ k) → ∀ c, (k, c) ∉ counter (pcs.map f) := by
    intro f k hk c
    refine counter_not_mem _ _ ?_ c
    intro hmem
    obtain ⟨x, hx, hfx⟩ := List.mem_map.mp hmem
    exact hk x hx hfx
  exact ⟨main (fun x => x.sentiment), absent (fun x => x.sentiment),
    main (fun x => x.original_language), absent (fun x => x.original_language)⟩

/-- Witness for C10: on a concrete two-comment batch, `("Positive", 2)` is in
the sentiment distribution and no `"Negative"` key is present. -/
theorem distribution_keys_spec_witness :
    (1 ≤ 2 ∧ 2 = ([longC, longC].map (fun x => x.sentiment)).count "Positive" ∧
      ∃ x ∈ [longC, longC], x.sentiment = "Positive") ∧
    ("Negative", 0) ∉ (get_analysis_summary [longC, longC]).sentiment_distribution :=
  ⟨(distribution_keys_spec [longC, longC]).1 "Positive" 2 (by
      show ("Positive", 2) ∈ counter ["Positive", "Positive"]
      rw [counter]
      exact List.mem_cons.mpr (Or.inl (by decide))),
   (distribution_keys_spec [longC, longC]).2.1 "Negative" (by decide) 0⟩

/-! ### Helper lemmas: fetcher loops -/

/-- An API oracle built from a pure page function (no transport errors). -/
def okApi (pages : Option String → Nat → PageResponse) : Api :=
  fun tok n => .ok (pages tok n)

theorem fetch_go_ok (pages : Option String → Nat → PageResponse) (maxr : Nat) :
    ∀ (fuel : Nat) (tok : Option String) (fetched : Nat),
      ∃ tr : List ReqRec,
        fetch_comments_go (okApi pages) maxr fuel tok fetched = .ok tr ∧
        (∀ r ∈ tr, r.size = min 100 (maxr - r.before) ∧ r.before < maxr ∧
          r.items = (pages r.tok r.size).items ∧
          r.nextTok = (pages r.tok r.size).nextPageToken) ∧
        (∀ r0 : ReqRec, tr.head? = some r0 → r0.tok = tok ∧ r0.before = fetched) ∧
        tr.Chain' (fun a b => a.nextTok = b.tok ∧ a.nextTok ≠ none ∧
          b.before = a.before + a.items.length) := by
  intro fuel
  induction fuel with
  | zero =>
    intro tok fetched
    exact ⟨[], rfl, by simp, by simp, List.chain'_nil⟩
  | succ fuel ih =>
    intro tok fetched
    by_cases hlt : fetched < maxr
    · cases hnt : (pages tok (min 100 (maxr - fetched))).nextPageToken with
      | none =>
        refine ⟨[⟨fetched, min 100 (maxr - fetched), tok,
            (pages tok (min 100 (maxr - fetched))).items, none⟩], ?_, ?_, ?_, ?_⟩
        · show (if fetched < maxr then _ else _) = _
          rw [if_pos hlt]
          show (match (pages tok (min 100 (maxr - fetched))).nextPageToken with
            | none => Except.ok [(⟨fetched, min 100 (maxr - fetched), tok,
                (pages tok (min 100 (maxr - fetched))).items, none⟩ : ReqRec)]
            | some t => (fetch_comments_go (okApi pages) maxr fuel (some t)
                (fetched + (pages tok (min 100 (maxr - fetched))).items.length)).map
                (fun rest => (⟨fetched, min 100 (maxr - fetched), tok,
                  (pages tok (min 100 (maxr - fetched))).items, some t⟩ : ReqRec) :: rest)) = _
          rw [hnt]
        · intro r hr
          rw [List.mem_singleton] at hr
          subst hr
          exact ⟨rfl, hlt, rfl, hnt.symm⟩
        · intro r0 h0
          injection h0 with h0
          subst h0
          exact ⟨rfl, rfl⟩
        · exact List.chain'_singleton _
      | some t =>
        obtain ⟨rest, hrest, hprops, hhead, hchain⟩ :=
          ih (some t) (fetched + (pages tok (min 100 (maxr - fetched))).items.length)
        refine ⟨⟨fetched, min 100 (maxr - fetched), tok,
            (pages tok (min 100 (maxr - fetched))).items, some t⟩ :: rest, ?_, ?_, ?_, ?_⟩
        · show (if fetched < maxr then _ else _) = _
          rw [if_pos hlt]
          show (match (pages tok (min 100 (maxr - fetched))).nextPageToken with
            | none => Except.ok [(⟨fetched, min 100 (maxr - fetched), tok,
                (pages tok (min 100 (maxr - fetched))).items, none⟩ : ReqRec)]
            | some t => (fetch_comments_go (okApi pages) maxr fuel (some t)
                (fetched + (pages tok (min 100 (maxr - fetched))).items.length)).map
                (fun rest => (⟨fetched, min 100 (maxr - fetched), tok,
                  (pages tok (min 100 (maxr - fetched))).items, some t⟩ : ReqRec) :: rest)) = _
          rw [hnt]
          show (fetch_comments_go (okApi pages) maxr fuel (some t)
              (fetched + (pages tok (min 100 (maxr - fetched))).items.length)).map
              (fun rest => (⟨fetched, min 100 (maxr - fetched), tok,
                (pages tok (min 100 (maxr - fetched))).items, some t⟩ : ReqRec) :: rest) = _
          rw [hrest]
          rfl
        · intro r hr
          rcases List.mem_cons.mp hr with rfl | hr
          · exact ⟨rfl, hlt, rfl, hnt.symm⟩
          · exact hprops r hr
        · intro r0 h0
          injection h0 with h0
          subst h0
          exact ⟨rfl, rfl⟩
        · rw [List.chain'_cons']
          refine ⟨?_, hchain⟩
          intro b hb
          obtain ⟨hbtok, hbbefore⟩ := hhead b hb
          exact ⟨hbtok.symm, by simp, by rw [hbbefore]⟩
    · refine ⟨[], ?_, by simp, by simp, List.chain'_nil⟩
      show (if fetched < maxr then _ else _) = _
      rw [if_neg hlt]

theorem fetch_go_error (api : Api) (maxr : Nat) :
    ∀ (fuel : Nat) (tok : Option String) (fetched : Nat) (e : FetchError),
      fetch_comments_go api maxr fuel tok fetched = .error e →
      ∃ t n m, api t n = .error m ∧
        e = .exception ("Error fetching comments: " ++ m) := by
  intro fuel
  induction fuel with
  | zero => intro tok fetched e h; cases h
  | succ fuel ih =>
    intro tok fetched e h
    rw [fetch_comments_go] at h
    by_cases hlt : fetched < maxr
    · rw [if_pos hlt] at h
      cases hapi : api tok (min 100 (maxr - fetched)) with
      | error m =>
        simp only [hapi] at h
        injection h with h
        exact ⟨tok, min 100 (maxr - fetched), m, hapi, h.symm⟩
      | ok resp =>
        simp only [hapi] at h
        cases hnt : resp.nextPageToken with
        | none => simp only [hnt] at h; cases h
        | some t =>
          simp only [hnt] at h
          cases hgo : fetch_comments_go api maxr fuel (some t)
              (fetched + resp.items.length) with
          | error e' =>
            simp only [hgo, Except.map] at h
            injection h with h
            subst h
            exact ih (some t) (fetched + resp.items.length) e' hgo
          | ok tr => simp only [hgo, Except.map] at h; cases h
    · rw [if_neg hlt] at h; cases h

theorem fetch_all_go_error (api : Api) :
    ∀ (fuel : Nat) (tok : Option String) (acc : List RawComment) (e : FetchError),
      fetch_all_go api fuel tok acc = .error e →
      ∃ t m, api t 100 = .error m ∧
        e = .exception ("Error fetching comments: " ++ m) := by
  intro fuel
  induction fuel with
  | zero => intro tok acc e h; cases h
  | succ fuel ih =>
    intro tok acc e h
    rw [fetch_all_go] at h
    cases hapi : api tok 100 with
    | error m =>
      simp only [hapi] at h
      injection h with h
      exact ⟨tok, m, hapi, h.symm⟩
    | ok resp =>
      simp only [hapi] at h
      cases hnt : resp.nextPageToken with
      | none => simp only [hnt] at h; cases h
      | some t =>
        simp only [hnt] at h
        exact ih (some t) (acc ++ resp.items) e h

theorem fetch_all_go_chain (api : Api) (n : Nat) (tok : Option String)
    (items : List RawComment) (hch : ChainN api n tok items) :
    ∀ (fuel : Nat), n ≤ fuel → ∀ acc : List RawComment,
      fetch_all_go api fuel tok acc = .ok (acc ++ items) := by
  induction hch with
  | last tok resp hapi hnt =>
    intro fuel hf acc
    match fuel, hf with
    | fuel + 1, _ =>
      simp only [fetch_all_go, hapi, hnt]
  | step tok resp t n rest hapi hnt hch ih =>
    intro fuel hf acc
    match fuel, hf with
    | fuel + 1, hf =>
      simp only [fetch_all_go, hapi, hnt]
      rw [ih fuel (by omega) (acc ++ resp.items), List.append_assoc]

/-- A concrete two-page upstream used by the fetcher witnesses. -/
def pages2 : Option String → Nat → PageResponse :=
  fun tok _ =>
    match tok with
    | none => { items := [rawC1], nextPageToken := some "p2" }
    | some _ => { items := [rawC1], nextPageToken := none }

/-- A transport layer that always fails with message `"boom"`. -/
def failApi : Api := fun _ _ => .error "boom"

/-- C6: against any error-free upstream page function, `fetch_comments`
returns at most `max_results` items in upstream arrival order (the
concatenation of the received pages, cut at `max_results`); every request it
issues asks for `min 100 (max_results - already_fetched)` items and is issued
only while fewer than `max_results` items have been accumulated; the first
request carries no page token and each subsequent request is issued only
because the previous response carried a next-page token, which it echoes.
`fetch_all_comments` returns the concatenation of all pages of the upstream
token chain until the next-page token is absent, for every sufficient fuel
bound (the loop itself has no iteration cap). -/
theorem fetch_pagination_spec (pages : Option String → Nat → PageResponse)
    (key : String) (url : String) (v : String) (maxr fuel : Nat)
    (hurl : get_video_id url = some v) (hkey : ¬key = "") :
    (∃ tr : List ReqRec,
      fetch_comments_go (okApi pages) maxr fuel none 0 = .ok tr ∧
      fetch_comments key (okApi pages) url maxr fuel
          = .ok ((tr.flatMap (fun r => r.items)).take maxr) ∧
      ((tr.flatMap (fun r => r.items)).take maxr).length ≤ maxr ∧
      (∀ r ∈ tr, r.size = min 100 (maxr - r.before) ∧ r.before < maxr ∧
        r.items = (pages r.tok r.size).items ∧
        r.nextTok = (pages r.tok r.size).nextPageToken) ∧
      (∀ r0 : ReqRec, tr.head? = some r0 → r0.tok = none ∧ r0.before = 0) ∧
      tr.Chain' (fun a b => a.nextTok = b.tok ∧ a.nextTok ≠ none ∧
        b.before = a.before + a.items.length)) ∧
    (∀ (n : Nat) (items : List RawComment),
      ChainN (okApi pages) n none items → n ≤ fuel →
      fetch_all_comments key (okApi pages) url fuel = .ok items) := by
  constructor
  · obtain ⟨tr, hgo, hprops, hhead, hchain⟩ := fetch_go_ok pages maxr fuel none 0
    refine ⟨tr, hgo, ?_, ?_, hprops, hhead, hchain⟩
    · unfold fetch_comments
      rw [hurl]
      simp only [hkey, if_neg, ite_false]
      rw [hgo]
      rfl
    · rw [List.length_take]
      exact min_le_left _ _
  · intro n items hch hle
    unfold fetch_all_comments
    rw [hurl]
    simp only [hkey, if_neg, ite_false]
    have := fetch_all_go_chain (okApi pages) n none items hch fuel hle []
    rw [this]
    rfl

/-- Witness for C6: a two-page upstream (one comment per page) is drained
completely by `fetch_all_comments`. -/
theorem fetch_pagination_spec_witness :
    fetch_all_comments "k" (okApi pages2) "https://youtu.be/dQw4w9WgXcQ" 2
        = .ok [rawC1, rawC1] :=
  (fetch_pagination_spec pages2 "k" "https://youtu.be/dQw4w9WgXcQ"
      "dQw4w9WgXcQ" 100 2 rfl (by decide)).2 2 [rawC1, rawC1]
    (ChainN.step none { items := [rawC1], nextPageToken := some "p2" } "p2" 1
      [rawC1] rfl rfl
      (ChainN.last (some "p2") { items := [rawC1], nextPageToken := none } rfl rfl))
    (by omega)

/-- C7: both fetchers fail with the URL-resolution `ValueError` — before any
API request, for every API oracle — when the video id cannot be extracted;
with the missing-credential `ValueError` when the key is empty (and the URL
resolves); and any transport error on any page request aborts the whole fetch:
the only other error either fetcher can return is the wrapped page-request
failure, which preserves the underlying message (no partial result is ever
returned, since the result type is either a comment list or an error). -/
theorem fetch_error_spec (api : Api) (key : String) (url : String)
    (maxr fuel : Nat) :
    (get_video_id url = none →
      fetch_comments key api url maxr fuel
          = .error (.valueError "Invalid YouTube URL or unable to extract video ID") ∧
      fetch_all_comments key api url fuel
          = .error (.valueError "Invalid YouTube URL or unable to extract video ID")) ∧
    (∀ v : String, get_video_id url = some v →
      fetch_comments "" api url maxr fuel
          = .error (.valueError "YouTube API key not found. Please set YOUTUBE_API_KEY in .env file") ∧
      fetch_all_comments "" api url fuel
          = .error (.valueError "YouTube API key not found. Please set YOUTUBE_API_KEY in .env file")) ∧
    (∀ (v : String) (e : FetchError), get_video_id url = some v → ¬key = "" →
      fetch_comments key api url maxr fuel = .error e →
      ∃ (t : Option String) (n : Nat) (m : String), api t n = .error m ∧
        e = .exception ("Error fetching comments: " ++ m)) ∧
    (∀ (v : String) (e : FetchError), get_video_id url = some v → ¬key = "" →
      fetch_all_comments key api url fuel = .error e →
      ∃ (t : Option String) (m : String), api t 100 = .error m ∧
        e = .exception ("Error fetching comments: " ++ m)) := by
  refine ⟨?_, ?_, ?_, ?_⟩
  · intro hurl
    constructor
    · unfold fetch_comments; rw [hurl]
    · unfold fetch_all_comments; rw [hurl]
  · intro v hurl
    constructor
    · unfold fetch_comments; rw [hurl]; simp
    · unfold fetch_all_comments; rw [hurl]; simp
  · intro v e hurl hkey h
    unfold fetch_comments at h
    rw [hurl] at h
    simp only [hkey, if_neg, ite_false] at h
    cases hgo : fetch_comments_go api maxr fuel none 0 with
    | error e' =>
      rw [hgo] at h
      injection h with h
      subst h
      exact fetch_go_error api maxr fuel none 0 e' hgo
    | ok tr =>
      rw [hgo] at h
      cases h
  · intro v e hurl hkey h
    unfold fetch_all_comments at h
    rw [hurl] at h
    simp only [hkey, if_neg, ite_false] at h
    exact fetch_all_go_error api fuel none [] e h

/-- Witness for C7: an unresolvable URL yields the URL `ValueError` for both
fetchers; a failing transport yields the wrapped `"boom"` message. -/
theorem fetch_error_spec_witness :
    (fetch_comments "k" failApi "hello" 50 3
        = .error (.valueError "Invalid YouTube URL or unable to extract video ID") ∧
      fetch_all_comments "k" failApi "hello" 3
        = .error (.valueError "Invalid YouTube URL or unable to extract video ID")) ∧
    (∃ (t : Option String) (n : Nat) (m : String), failApi t n = .error m ∧
      FetchError.exception "Error fetching comments: boom"
        = .exception ("Error fetching comments: " ++ m)) :=
  ⟨(fetch_error_spec failApi "k" "hello" 50 3).1 rfl,
   (fetch_error_spec failApi "k" "https://youtu.be/dQw4w9WgXcQ" 50 3).2.2.1
     "dQw4w9WgXcQ" (.exception "Error fetching comments: boom") rfl (by decide) rfl⟩
